import Mathlib

/-!
Shallow embedding of `src/RTTTL.cpp` (ESP32 RTTTL player, ported from
NonBlockingRTTTL).  The song text is a `List Char`; the C read cursor
`const char *buffer` is modelled as the remaining suffix of that list, and
reading the NUL terminator at the end of the string is modelled by
`peek [] = Char.ofNat 0`.  The LEDC tone hardware is modelled by
`toneOn : Option Nat` (`none` = duty 0, i.e. muted by `noTone`; `some i` =
duty 512 at the frequency `notes[i]`; the frequency table `notes[]` lives in
`RTTTL.h` and is external pure data, so the state records the lookup index).
Every call to `vTaskDelay` is accumulated in `slept`, the total number of
milliseconds the call blocked the calling task.  Values returned by
`millis()` are passed in as explicit time arguments.  Machine integers are
modelled as `Nat` (all quantities involved are non-negative and small);
`60 * 1000 / bpm` uses `Nat` division, which at `bpm = 0` stands for the
unguarded C division whose reachability claim C4 is about.
-/

namespace RTTTL

/-- Reading the cursor, `*buffer`; the end of the list stands for the NUL
terminator of the C string. -/
def peek : List Char → Char
  | [] => Char.ofNat 0
  | c :: _ => c

/-- C `isdigit` restricted to the character range of song texts. -/
def isdigit (c : Char) : Bool := decide ('0' ≤ c) && decide (c ≤ '9')

/-- The digit-run scan
`while (isdigit(*buffer)) { num = (num * 10) + (*buffer++ - '0'); }`
returning the accumulated value and the advanced cursor (`'0'` is 48). -/
def parseDigits : List Char → Nat → Nat × List Char
  | [], num => (num, [])
  | c :: rest, num =>
    if isdigit c then parseDigits rest (num * 10 + (c.toNat - 48)) else (num, c :: rest)

/-- Numeric value of a digit string; used on the specification side of the
theorems to say what a digit run denotes. -/
def digitsVal (ds : List Char) : Nat := ds.foldl (fun a c => a * 10 + (c.toNat - 48)) 0

/-- The mutable members of class `RTTTL` that the core logic reads or writes.
`pin`, `channel` and `timer` are hardware handles used only by the external
Tone Driver and are omitted. -/
structure RState where
  buffer : List Char
  songStart : Option (List Char)
  defaultDur : Nat
  defaultOct : Nat
  bpm : Nat
  wholenote : Nat
  noteDelay : Nat
  volume : Int
  playing : Bool
  toneOn : Option Nat
  slept : Nat
deriving DecidableEq

/-- `RTTTL::noTone`: set the LEDC duty to 0, muting the output. -/
def noTone (s : RState) : RState := { s with toneOn := none }

/-- `RTTTL::tone(freq, duration)`: reconfigure the timer to the frequency
(recorded by its table index `idx`), set duty 512, then
`vTaskDelay(pdMS_TO_TICKS(duration))` — the delay is recorded in `slept`. -/
def tone (idx duration : Nat) (s : RState) : RState :=
  { s with toneOn := some idx, slept := s.slept + duration }

/-- `while (*buffer != ':') buffer++; buffer++;` — skip the song name and the
colon.  (The C scan is unchecked; on a text with no colon it would run past
the terminator, which the spec lists as a known hazard; the model stops at
the end of the list.) -/
def skipName (buf : List Char) : List Char :=
  (buf.dropWhile fun c => c != ':').tail

/-- The `d=` field of the header: `if (*buffer == 'd')` skip `d=`, scan a
digit run, keep it as default duration only when positive (else keep the
built-in 4), then skip the comma.  Returns (defaultDur, advanced cursor). -/
def parseD (buf : List Char) : Nat × List Char :=
  if peek buf = 'd' then
    let r := parseDigits buf.tail.tail 0
    (if 0 < r.1 then r.1 else 4, r.2.tail)
  else (4, buf)

/-- The `o=` field of the header: `if (*buffer == 'o')` skip `o=`, take one
character as `num = *buffer++ - '0'`, keep it only when in `[3,7]` (else keep
the built-in 6), then skip the comma. -/
def parseO (buf : List Char) : Nat × List Char :=
  if peek buf = 'o' then
    let num := (peek buf.tail.tail).toNat - 48
    (if 3 ≤ num ∧ num ≤ 7 then num else 6, buf.tail.tail.tail.tail)
  else (6, buf)

/-- The `b=` field of the header: `if (*buffer == 'b')` skip `b=`, scan a
digit run as BPM with no validation against zero, then skip the colon; when
the field is absent the reset value 63 stands. -/
def parseB (buf : List Char) : Nat × List Char :=
  if peek buf = 'b' then
    let r := parseDigits buf.tail.tail 0
    (r.1, r.2.tail)
  else (63, buf)

/-- `RTTTL::loadSong(song, volume)` (lines 56–106): reset the defaults, mute
the output (`noTone`), skip the name, parse the optional `d=`, `o=`, `b=`
fields in that fixed order, compute
`wholenote = (60 * 1000L / bpm) * 2`, and record the post-header cursor as
`songStart`.  The `playing` flag is not touched by the source. -/
def loadSong (song : List Char) (volume : Int) (s : RState) : RState :=
  let b0 := skipName song
  let d := parseD b0
  let o := parseO d.2
  let b := parseB o.2
  { s with
      buffer := b.2
      songStart := some b.2
      defaultDur := d.1
      defaultOct := o.1
      bpm := b.1
      wholenote := 60 * 1000 / b.1 * 2
      noteDelay := 0
      volume := volume
      toneOn := none }

/-- Modelled from the spec: `OCTAVE_OFFSET` is defined in `RTTTL.h`, which is
not under `src/`; §4.2 step 7 says the offset constant makes octave 4 map to
table row 0 through the `scale - 4` reindexing, so the constant is 0. -/
def OCTAVE_OFFSET : Nat := 0

/-- The `switch (*buffer)` of `RTTTL::nextNote` mapping a note letter to its
semitone offset; `'p'` and every unrecognized character fall to 0 (rest). -/
def noteOfChar (c : Char) : Nat :=
  match c with
  | 'c' => 1
  | 'd' => 3
  | 'e' => 5
  | 'f' => 6
  | 'g' => 8
  | 'a' => 10
  | 'b' => 12
  | _ => 0

/-- One decoded note token: semitone offset, duration in ms, scale (octave
after adding `OCTAVE_OFFSET`), and the cursor after the token. -/
structure NoteTok where
  note : Nat
  duration : Nat
  scale : Nat
  rest : List Char
deriving DecidableEq

/-- The pure decoding part of `RTTTL::nextNote` (lines 138–201), step by
step as in the source: digit run (explicit divisor), base duration
`wholenote / num` or `wholenote / defaultDur`, note letter, optional `#`
(offset + 1), optional `.` (`duration += duration / 2`), optional scale
digit (else `defaultOct`), `scale += OCTAVE_OFFSET`, optional trailing
comma. -/
def parseTok (wholenote defaultDur defaultOct : Nat) (buf : List Char) : NoteTok :=
  let r := parseDigits buf 0
  let num := r.1
  let b1 := r.2
  let dur0 := if num ≠ 0 then wholenote / num else wholenote / defaultDur
  let note0 := noteOfChar (peek b1)
  let b2 := b1.tail
  let note1 := if peek b2 = '#' then note0 + 1 else note0
  let b3 := if peek b2 = '#' then b2.tail else b2
  let dur1 := if peek b3 = '.' then dur0 + dur0 / 2 else dur0
  let b4 := if peek b3 = '.' then b3.tail else b3
  let scale0 := if isdigit (peek b4) then (peek b4).toNat - 48 else defaultOct
  let b5 := if isdigit (peek b4) then b4.tail else b4
  let b6 := if peek b5 = ',' then b5.tail else b5
  { note := note1, duration := dur1, scale := scale0 + OCTAVE_OFFSET, rest := b6 }

/-- `RTTTL::nextNote` (lines 130–210): mute the current note, decode one
token, then either `tone(notes[(scale - 4) * 12 + note], duration)` with
`noteDelay = millis() + (duration + 1)` for a sounding note, or leave the
output muted with `noteDelay = millis() + duration` for a rest.  `t` is the
value `millis()` returns at line 206/208. -/
def nextNote (t : Nat) (s : RState) : RState :=
  let s0 := noTone s
  let tok := parseTok s.wholenote s.defaultDur s.defaultOct s.buffer
  if tok.note ≠ 0 then
    let s1 := tone ((tok.scale - 4) * 12 + tok.note) tok.duration s0
    { s1 with buffer := tok.rest, noteDelay := t + (tok.duration + 1) }
  else
    { s0 with buffer := tok.rest, noteDelay := t + tok.duration }

/-- `RTTTL::play` (lines 212–220): if a song has been loaded
(`songStart != nullptr`), notify the worker task (external signalling, no
core state), set `playing = true` and return true; otherwise return false
leaving the state untouched. -/
def play (s : RState) : Bool × RState :=
  if s.songStart.isSome then (true, { s with playing := true }) else (false, s)

/-- `RTTTL::stop` (lines 247–254): when playing, clear the flag, mute the
output and rewind the cursor to `songStart`; a no-op otherwise. -/
def stop (s : RState) : RState :=
  if s.playing then
    { s with playing := false, toneOn := none, buffer := s.songStart.getD [] }
  else s

/-- `RTTTL::continuePlaying` (lines 222–245): the step operation.  `m` is
the value of `millis()` read at line 229 and `t` the one `nextNote` reads
when it runs.  Returns the C return value together with the new state. -/
def continuePlaying (m t : Nat) (s : RState) : Bool × RState :=
  if !s.playing then (false, s)
  else if m < s.noteDelay then (true, s)
  else if peek s.buffer = Char.ofNat 0 then (false, stop s)
  else (true, nextNote t s)

/-- `RTTTL::isPlaying`. -/
def isPlaying (s : RState) : Bool := s.playing

/-- `RTTTL::done`. -/
def done (s : RState) : Bool := !s.playing

/-- Modelled from the spec: the initial member values come from `RTTTL.h`,
which is not under `src/`; §4.3 and §6 say `Stopped` is the initial state
and that before any load there is no `songStartCursor` (null).  The numeric
fields are all (re)written by `loadSong` before any use. -/
def initState : RState :=
  { buffer := []
    songStart := none
    defaultDur := 4
    defaultOct := 6
    bpm := 63
    wholenote := 0
    noteDelay := 0
    volume := 10
    playing := false
    toneOn := none
    slept := 0 }

/-- A loaded demo song: a single quarter note c at 100 bpm, octave 5. -/
def demoLoaded : RState :=
  loadSong (("x:d=4,o=5,b=100:c" : String).toList) 10 initState

/-- The demo song after `play()`. -/
def demoPlaying : RState := (play demoLoaded).2

/-- Reading the cursor at the end of the text gives the NUL terminator. -/
theorem peek_nil : peek [] = Char.ofNat 0 := rfl

/-- Reading the cursor mid-text gives the character under it. -/
theorem peek_cons (c : Char) (l : List Char) : peek (c :: l) = c := rfl

/-- The unchecked name scan stops at the first colon. -/
theorem dropWhile_colon (name t : List Char) (h : ∀ c ∈ name, c ≠ ':') :
    (name ++ ':' :: t).dropWhile (fun c => c != ':') = ':' :: t := by
  induction name with
  | nil => simp [List.dropWhile]
  | cons c cs ih =>
      have hc : (c != ':') = true := by
        simpa using h c (List.mem_cons_self c cs)
      simp only [List.cons_append, List.dropWhile_cons, hc, if_true]
      exact ih fun x hx => h x (List.mem_cons_of_mem c hx)

/-- `skipName` lands right after the first colon. -/
theorem skipName_append (name t : List Char) (h : ∀ c ∈ name, c ≠ ':') :
    skipName (name ++ ':' :: t) = t := by
  simp [skipName, dropWhile_colon name t h]

/-- The digit-run scan consumes exactly the leading digit run. -/
theorem parseDigits_append (ds rest : List Char) (acc : Nat)
    (hds : ∀ c ∈ ds, isdigit c = true) (hrest : isdigit (peek rest) = false) :
    parseDigits (ds ++ rest) acc
      = (ds.foldl (fun a c => a * 10 + (c.toNat - 48)) acc, rest) := by
  induction ds generalizing acc with
  | nil =>
      cases rest with
      | nil => simp [parseDigits]
      | cons r rs =>
          simp only [peek] at hrest
          simp [parseDigits, hrest]
  | cons c cs ih =>
      have hc := hds c (List.mem_cons_self c cs)
      simp only [List.cons_append, parseDigits, hc, if_true, List.foldl_cons]
      exact ih _ fun x hx => hds x (List.mem_cons_of_mem c hx)

/-- `parseDigits` starting from 0 computes the value of the digit run. -/
theorem parseDigits_digitsVal (ds rest : List Char)
    (hds : ∀ c ∈ ds, isdigit c = true) (hrest : isdigit (peek rest) = false) :
    parseDigits (ds ++ rest) 0 = (digitsVal ds, rest) :=
  parseDigits_append ds rest 0 hds hrest

/-- Claim C1: the step operation must never sleep out a note's duration, yet
on a state about to start the 300 ms note c, one `continuePlaying` call
accumulates 300 ms of `vTaskDelay` sleep (inside `tone`), blocking the
calling task for the whole note. -/
theorem step_sleeps_full_note_duration :
    demoPlaying.slept = 0 ∧ ((continuePlaying 0 300 demoPlaying).2).slept = 300 := by
  decide

/-- Claim C2, counterexample: load a song, start playback, then load again —
`isPlaying` still returns true after the second `loadSong`, so `loadSong`
does not reset the playback state to Stopped. -/
theorem loadSong_keeps_playing :
    isPlaying (loadSong (("a:b=100:c" : String).toList) 10
      (play (loadSong (("a:b=100:c" : String).toList) 10 initState)).2) = true := by
  decide

/-- Claim C2, amended: after `loadSong` the cursor equals the recorded
`songStart`, and the `playing` flag is left unchanged (so `isPlaying` is
false after the call only when playback was already stopped before it). -/
theorem loadSong_cursor_and_flag (song : List Char) (v : Int) (s : RState) :
    (loadSong song v s).songStart = some (loadSong song v s).buffer
    ∧ (loadSong song v s).playing = s.playing := by
  simp [loadSong]

/-- Claim C4: the song text `"x:b=0:c"` reaches the `wholenote` computation
with `bpm = 0`, and the unguarded division `60 * 1000 / bpm` is performed
with that zero divisor (undefined behavior in the C source; `Nat` division
in the model). -/
theorem bpm_zero_division_reachable :
    (loadSong (("x:b=0:c" : String).toList) 10 initState).bpm = 0
    ∧ (loadSong (("x:b=0:c" : String).toList) 10 initState).wholenote
      = 60 * 1000 / (loadSong (("x:b=0:c" : String).toList) 10 initState).bpm * 2 := by
  decide

/-- Claim C8: `play` returns false and leaves the state unchanged when no
song is loaded; otherwise it returns true and sets `playing`, touching
neither the cursor, nor `noteDelay`, nor the tone output (no synchronous
decode of the first note). -/
theorem play_no_song (s : RState) :
    (s.songStart = none → play s = (false, s))
    ∧ (∀ st, s.songStart = some st →
        (play s).1 = true ∧ (play s).2.playing = true
        ∧ (play s).2.buffer = s.buffer ∧ (play s).2.noteDelay = s.noteDelay
        ∧ (play s).2.toneOn = s.toneOn ∧ (play s).2.songStart = s.songStart) := by
  constructor
  · intro h; simp [play, h]
  · intro st h; simp [play, h]

/-- Claim C8, witness: both branches of `play_no_song` at concrete states. -/
theorem play_no_song_witness :
    play initState = (false, initState) ∧ (play demoLoaded).1 = true := by
  exact ⟨(play_no_song initState).1 rfl,
    (((play_no_song demoLoaded).2 (['c']) (by decide)).1)⟩

/-- Claim C10: `stop` is idempotent, always leaves `isPlaying` false, is a
no-op on a stopped state, and from a playing state mutes the output and
rewinds the cursor to `songStart`. -/
theorem stop_idempotent (s : RState) :
    stop (stop s) = stop s
    ∧ isPlaying (stop s) = false
    ∧ (s.playing = false → stop s = s)
    ∧ (stop s).toneOn = (if s.playing then none else s.toneOn)
    ∧ (stop s).buffer = (if s.playing then s.songStart.getD [] else s.buffer) := by
  by_cases h : s.playing <;> simp [stop, isPlaying, h]

/-- Claim C10, witness: `stop_idempotent` at the stopped initial state. -/
theorem stop_idempotent_witness :
    stop (stop initState) = stop initState
    ∧ isPlaying (stop initState) = false
    ∧ stop initState = initState := by
  have h := stop_idempotent initState
  exact ⟨h.1, h.2.1, h.2.2.1 rfl⟩

/-- Claim C5: a playing state whose deadline has passed with the cursor on
the NUL terminator makes the step mute the output, clear `playing`, rewind
the cursor to `songStart` and return false. -/
theorem step_end_of_text (s : RState) (m t : Nat) (start : List Char)
    (hp : s.playing = true) (hd : ¬ m < s.noteDelay)
    (he : peek s.buffer = Char.ofNat 0) (hs : s.songStart = some start) :
    continuePlaying m t s
      = (false, { s with playing := false, toneOn := none, buffer := start }) := by
  simp [continuePlaying, hp, hd, he, stop, hs]

/-- Claim C5, witness: `step_end_of_text` on the played demo song with the
cursor moved to the end of the text. -/
theorem step_end_of_text_witness :
    continuePlaying 0 0 { demoPlaying with buffer := [] }
      = (false, { { demoPlaying with buffer := [] } with
          playing := false, toneOn := none, buffer := ['c'] }) :=
  step_end_of_text _ 0 0 ['c'] (by decide) (by decide) (by decide) (by decide)

/-- Claim C6: when the step decodes a note, a non-rest starts the looked-up
frequency (`notes[(scale - 4) * 12 + note]`) and sets
`noteDelay = t + (duration + 1)`, while a rest leaves the output muted and
sets `noteDelay = t + duration`; `t` is the `millis()` reading taken when
the deadline is stored. -/
theorem step_note_event (s : RState) (m t : Nat)
    (hp : s.playing = true) (hd : ¬ m < s.noteDelay)
    (he : ¬ peek s.buffer = Char.ofNat 0) :
    (continuePlaying m t s).1 = true
    ∧ ((continuePlaying m t s).2).toneOn
      = (if (parseTok s.wholenote s.defaultDur s.defaultOct s.buffer).note ≠ 0
         then some (((parseTok s.wholenote s.defaultDur s.defaultOct s.buffer).scale - 4) * 12
            + (parseTok s.wholenote s.defaultDur s.defaultOct s.buffer).note)
         else none)
    ∧ ((continuePlaying m t s).2).noteDelay
      = (if (parseTok s.wholenote s.defaultDur s.defaultOct s.buffer).note ≠ 0
         then t + ((parseTok s.wholenote s.defaultDur s.defaultOct s.buffer).duration + 1)
         else t + (parseTok s.wholenote s.defaultDur s.defaultOct s.buffer).duration) := by
  have h1 : continuePlaying m t s = (true, nextNote t s) := by
    simp [continuePlaying, hp, hd, he]
  rw [h1]
  by_cases hn : (parseTok s.wholenote s.defaultDur s.defaultOct s.buffer).note ≠ 0
  · simp [nextNote, hn, tone, noTone]
  · simp [nextNote, hn, tone, noTone]

/-- Claim C6, witness: `step_note_event` on the played demo song (note c,
300 ms, deadline 0, step at time 0 storing the deadline at time 300). -/
theorem step_note_event_witness :
    ((continuePlaying 0 300 demoPlaying).2).toneOn
      = (if (parseTok demoPlaying.wholenote demoPlaying.defaultDur
              demoPlaying.defaultOct demoPlaying.buffer).note ≠ 0
         then some (((parseTok demoPlaying.wholenote demoPlaying.defaultDur
              demoPlaying.defaultOct demoPlaying.buffer).scale - 4) * 12
            + (parseTok demoPlaying.wholenote demoPlaying.defaultDur
              demoPlaying.defaultOct demoPlaying.buffer).note)
         else none) :=
  (step_note_event demoPlaying 0 300 (by decide) (by decide) (by decide)).2.1

/-- Claim C3, counterexample: the token `p#` does not decode to a rest —
the sharp branch increments the offset of `'p'` from 0 to 1, and on a
playing state the step starts a tone (table index 13 here) instead of
keeping the output muted. -/
theorem p_sharp_not_rest :
    (parseTok 1200 4 6 (("p#" : String).toList)).note = 1
    ∧ (nextNote 0 { demoPlaying with
        buffer := ("p#" : String).toList }).toneOn = some 13 := by
  decide

/-- Claim C3, amended: `c#` and `c` in the same context differ by exactly
one semitone offset, and a `p` token decodes to a rest (offset 0, output
left muted) for every following modifier except `#`: a `#` right after `p`
yields offset 1 and a tone is started. -/
theorem sharp_and_rest_amended (suffix : List Char) (h : peek suffix ≠ '#') :
    (∀ w dd oc : Nat,
        (parseTok w dd oc ('c' :: '#' :: suffix)).note
          = (parseTok w dd oc ('c' :: suffix)).note + 1
        ∧ (parseTok w dd oc ('c' :: suffix)).note = 1
        ∧ (parseTok w dd oc ('p' :: suffix)).note = 0)
    ∧ (∀ (t : Nat) (s : RState), s.buffer = 'p' :: suffix →
        (nextNote t s).toneOn = none) := by
  have hc : isdigit 'c' = false := by decide
  have hcp : isdigit 'p' = false := by decide
  have nc : noteOfChar 'c' = 1 := by decide
  have np : noteOfChar 'p' = 0 := by decide
  constructor
  · intro w dd oc
    refine ⟨?_, ?_, ?_⟩ <;>
      simp [parseTok, parseDigits, peek_cons, hc, hcp, nc, np, h]
  · intro t s hs
    have hn : ¬ (parseTok s.wholenote s.defaultDur s.defaultOct s.buffer).note ≠ 0 := by
      simp [hs, parseTok, parseDigits, peek_cons, hcp, np, h]
    simp [nextNote, hn, noTone]

/-- Claim C3 amended, witness: the sharp law at `c#`/`c` and the rest law
at a bare `p` token. -/
theorem sharp_and_rest_amended_witness :
    (parseTok 1200 4 6 ('c' :: '#' :: [])).note
      = (parseTok 1200 4 6 ('c' :: [])).note + 1
    ∧ (nextNote 0 { initState with buffer := ['p'] }).toneOn = none := by
  have h := sharp_and_rest_amended [] (by decide)
  exact ⟨(h.1 1200 4 6).1, h.2 0 { initState with buffer := ['p'] } rfl⟩

/-- Claim C9: with base duration `T` (from the explicit divisor when present
and non-zero, else the default), a `.` after the letter (and optional `#`)
yields duration `T + T / 2`, and the duration is `T` when the `.` is
absent. -/
theorem dotted_duration (w dd oc T : Nat) (ds sh suffix : List Char) (c : Char)
    (hds : ∀ x ∈ ds, isdigit x = true)
    (hc : isdigit c = false)
    (hsh : sh = [] ∨ sh = ['#'])
    (h1 : peek suffix ≠ '.') (h2 : peek suffix ≠ '#')
    (hT : T = if digitsVal ds ≠ 0 then w / digitsVal ds else w / dd) :
    (parseTok w dd oc (ds ++ c :: (sh ++ '.' :: suffix))).duration = T + T / 2
    ∧ (parseTok w dd oc (ds ++ c :: (sh ++ suffix))).duration = T := by
  have hdot : ¬ (('.' : Char) = '#') := by decide
  rcases hsh with rfl | rfl
  · have hr1 := parseDigits_digitsVal ds (c :: '.' :: suffix) hds hc
    have hr2 := parseDigits_digitsVal ds (c :: suffix) hds hc
    simp only [List.nil_append]
    constructor
    · simp [parseTok, hr1, peek_cons, hT, hdot]
    · simp [parseTok, hr2, peek_cons, hT, h1, h2]
  · have hr1 := parseDigits_digitsVal ds (c :: '#' :: '.' :: suffix) hds hc
    have hr2 := parseDigits_digitsVal ds (c :: '#' :: suffix) hds hc
    simp only [List.singleton_append]
    constructor
    · simp [parseTok, hr1, peek_cons, hT, hdot]
    · simp [parseTok, hr2, peek_cons, hT, h1, h2]

/-- Claim C9, witness: the spec's example, base 500 ms dotted to 750 ms
(`wholenote` 2000, default duration 4, tokens `c.` and `c`). -/
theorem dotted_duration_witness :
    (parseTok 2000 4 6 ['c', '.']).duration = 750
    ∧ (parseTok 2000 4 6 ['c']).duration = 500 := by
  have h := dotted_duration 2000 4 6 500 [] [] [] 'c'
    (by simp) (by decide) (Or.inl rfl) (by decide) (by decide) (by decide)
  exact h

/-- The `d=` field on a well-formed run: value applied when positive, comma
skipped. -/
theorem parseD_run (ds t : List Char) (hds : ∀ c ∈ ds, isdigit c = true)
    (ht : isdigit (peek t) = false) (hpos : 0 < digitsVal ds) :
    parseD ('d' :: '=' :: (ds ++ t)) = (digitsVal ds, t.tail) := by
  have h := parseDigits_digitsVal ds t hds ht
  simp [parseD, peek_cons, h, hpos]

/-- The `o=` field on a digit in `[3,7]`: value applied, comma skipped. -/
theorem parseO_run (oc : Char) (t : List Char)
    (h3 : 3 ≤ oc.toNat - 48) (h7 : oc.toNat - 48 ≤ 7) :
    parseO ('o' :: '=' :: oc :: ',' :: t) = (oc.toNat - 48, t) := by
  simp [parseO, peek_cons, h3, h7]

/-- The `b=` field on a well-formed run: value taken unchecked, colon
skipped. -/
theorem parseB_run (bs t : List Char) (hbs : ∀ c ∈ bs, isdigit c = true)
    (ht : isdigit (peek t) = false) :
    parseB ('b' :: '=' :: (bs ++ t)) = (digitsVal bs, t.tail) := by
  have h := parseDigits_digitsVal bs t hbs ht
  simp [parseB, peek_cons, h]

/-- Claim C7: on every valid header `name:d=D,o=O,b=B:...` with
`D ∈ {1,2,4,8,16,32}`, `O ∈ [3,7]` and `B > 0`, `loadSong` yields defaults
`D`, `O`, `B`, `wholenote = 60000 / B * 2` (integer division), and the
post-header cursor recorded as `songStart`. -/
theorem loadSong_valid_header (name ds bs rest : List Char) (oc : Char)
    (v : Int) (s : RState)
    (hname : ∀ c ∈ name, c ≠ ':')
    (hds : ∀ c ∈ ds, isdigit c = true)
    (hbs : ∀ c ∈ bs, isdigit c = true)
    (hD : digitsVal ds ∈ [1, 2, 4, 8, 16, 32])
    (ho3 : 3 ≤ oc.toNat - 48) (ho7 : oc.toNat - 48 ≤ 7)
    (hB : 0 < digitsVal bs) :
    let song := name ++ ':' :: 'd' :: '=' ::
      (ds ++ ',' :: 'o' :: '=' :: oc :: ',' :: 'b' :: '=' :: (bs ++ ':' :: rest))
    (loadSong song v s).defaultDur = digitsVal ds
    ∧ (loadSong song v s).defaultOct = oc.toNat - 48
    ∧ (loadSong song v s).bpm = digitsVal bs
    ∧ (loadSong song v s).wholenote = 60000 / digitsVal bs * 2
    ∧ (loadSong song v s).songStart = some rest
    ∧ (loadSong song v s).buffer = rest := by
  intro song
  have hpos : 0 < digitsVal ds := by
    simp only [List.mem_cons, List.not_mem_nil, or_false] at hD
    omega
  have hskip : skipName song = 'd' :: '=' ::
      (ds ++ ',' :: 'o' :: '=' :: oc :: ',' :: 'b' :: '=' :: (bs ++ ':' :: rest)) :=
    skipName_append name _ hname
  have hd := parseD_run ds
    (',' :: 'o' :: '=' :: oc :: ',' :: 'b' :: '=' :: (bs ++ ':' :: rest))
    hds (by rw [peek_cons]; decide) hpos
  have ho := parseO_run oc ('b' :: '=' :: (bs ++ ':' :: rest)) ho3 ho7
  have hb := parseB_run bs (':' :: rest) hbs (by rw [peek_cons]; decide)
  simp [loadSong, hskip, hd, ho, hb]

/-- Claim C7, witness: the header `x:d=8,o=5,b=100:c` parses to defaults
8, 5, 100 and `wholenote` 1200. -/
theorem loadSong_valid_header_witness :
    (loadSong (("x:d=8,o=5,b=100:c" : String).toList) 10 initState).defaultDur = 8
    ∧ (loadSong (("x:d=8,o=5,b=100:c" : String).toList) 10 initState).defaultOct = 5
    ∧ (loadSong (("x:d=8,o=5,b=100:c" : String).toList) 10 initState).bpm = 100
    ∧ (loadSong (("x:d=8,o=5,b=100:c" : String).toList) 10 initState).wholenote = 1200
    ∧ (loadSong (("x:d=8,o=5,b=100:c" : String).toList) 10 initState).songStart = some ['c']
    ∧ (loadSong (("x:d=8,o=5,b=100:c" : String).toList) 10 initState).buffer = ['c'] := by
  have h := loadSong_valid_header ['x'] ['8'] ['1', '0', '0'] ['c'] '5' 10 initState
    (by decide) (by decide) (by decide) (by decide) (by decide) (by decide) (by decide)
  exact h

end RTTTL
